import Mathlib

/-!
Verification of the parameter re-simulation engine of the stairs-ai demo
(`web/src/lib/computeDerived.ts`), a shallow embedding in Lean 4.

Modelling conventions:
* JavaScript numbers that only ever flow through comparisons and a single
  multiplication (`min_distance`, `threshold`, `timestamp_sec`,
  `debounceDuration`) are modelled as `ℚ`; integer-valued counters as `ℕ`.
* `Math.ceil(debounceDuration * fps)` is `Int.ceil` on `ℚ`.
* The commit branch of `simulateDebounce` executes `commitEvent = true;`
  (computeDerived.ts line 155) where `commitEvent` is declared nowhere in the
  module.  The file is a strict-mode ES module, so this assignment throws a
  `ReferenceError` before `events.push` runs.  The embedding therefore returns
  `Except.error ()` at that point; all other paths are total.
* Record fields never read nor written by `computeDerived.ts` (bounding boxes,
  poses, confidences, the four per-rail booleans, file paths) are carried
  through the TypeScript code unchanged by object spreads and are elided from
  the embedded records.
-/

namespace StairsDemo

/-- Compliance axis of the state machine (`ComplianceState` in the source). -/
inductive ComplianceState
  | compliant
  | non_compliant
  | unknown
deriving DecidableEq

/-- Phone axis of the state machine (`PhoneState` in the source). -/
inductive PhoneState
  | phone
  | no_phone
  | unknown
deriving DecidableEq

/-- The pair tracked by the debounce machine (`StateTuple` in the source). -/
abbrev StateTuple := ComplianceState × PhoneState

/-- Rail hit-test result (from `types.ts`); only `any_hit` is read by the core,
the four per-rail booleans are passed through unchanged and elided. -/
structure RailHitTestResult where
  any_hit : Bool
deriving DecidableEq

/-- Phone heuristic result (from `types.ts`); the four raw wrist-to-ear
distances are passed through unchanged and elided. -/
structure PhoneHeuristicResult where
  min_distance : ℚ
  threshold : ℚ
  is_phone_talking : Bool
deriving DecidableEq

/-- Person analysis record (from `types.ts`); bbox, pose, confidence and
crop paths are passed through unchanged and elided. -/
structure PersonAnalysis where
  person_id : ℕ
  rail_hit_test : Option RailHitTestResult
  phone_heuristic : Option PhoneHeuristicResult
deriving DecidableEq

/-- Frame-level metrics (from `types.ts`). -/
structure FrameMetrics where
  total_persons : ℕ
  compliant_count : ℕ
  non_compliant_count : ℕ
  phone_count : ℕ
  avg_confidence : ℚ
deriving DecidableEq

/-- State machine block attached to processed packets (from `types.ts`). -/
structure StateMachineState where
  current_state : StateTuple
  pending_state : Option StateTuple
  time_in_pending : ℚ
  debounce_threshold : ℚ
deriving DecidableEq

/-- One frame packet (from `types.ts`); `annotated_frame_path` elided. -/
structure FramePacket where
  frame_number : ℕ
  timestamp_sec : ℚ
  metrics : FrameMetrics
  persons : List PersonAnalysis
  state_machine : Option StateMachineState
deriving DecidableEq

/-- Simulated event produced by a committed transition (`SimulatedEvent`). -/
structure SimulatedEvent where
  frame_number : ℕ
  timestamp_sec : ℚ
  old_state : StateTuple
  new_state : StateTuple
  event_type : String
deriving DecidableEq

/-- Statistics of one simulation run (`SimulationStats`). -/
structure SimulationStats where
  totalFrames : ℕ
  compliantFrames : ℕ
  nonCompliantFrames : ℕ
  phoneFrames : ℕ
  totalCommits : ℕ
deriving DecidableEq

/-- Result record of `simulateDebounce`. -/
structure SimulationResult where
  packets : List FramePacket
  events : List SimulatedEvent
  stats : SimulationStats
deriving DecidableEq

/-- Default phone threshold (`DEFAULT_PHONE_THRESHOLD = 0.05`). -/
def DEFAULT_PHONE_THRESHOLD : ℚ := 5 / 100

/-- Default debounce duration (`DEFAULT_DEBOUNCE_DURATION = 0.55`). -/
def DEFAULT_DEBOUNCE_DURATION : ℚ := 55 / 100

/-- The assumed frame rate (`const fps = 24`). -/
def fps : ℕ := 24

/-- Direct translation of `recomputePhoneForPerson`: a missing heuristic is
never flagged, otherwise the strict comparison `min_distance < newThreshold`. -/
def recomputePhoneForPerson (phoneHeuristic : Option PhoneHeuristicResult)
    (newThreshold : ℚ) : Bool :=
  match phoneHeuristic with
  | none => false
  | some h => decide (h.min_distance < newThreshold)

/-- Per-person update performed at the top of the `simulateDebounce` loop
(lines 111-121): recompute `is_phone_talking` and stamp the new threshold. -/
def recomputePerson (phoneThreshold : ℚ) (person : PersonAnalysis) :
    PersonAnalysis :=
  let isPhone := recomputePhoneForPerson person.phone_heuristic phoneThreshold
  { person with
    phone_heuristic := person.phone_heuristic.map fun h =>
      { h with is_phone_talking := isPhone, threshold := phoneThreshold } }

/-- The test `recomputedPersons.some(p => p.rail_hit_test?.any_hit)`. -/
def anyHoldingRail (persons : List PersonAnalysis) : Bool :=
  persons.any fun p => (p.rail_hit_test.map (·.any_hit)).getD false

/-- The test `recomputedPersons.some(p => p.phone_heuristic?.is_phone_talking)`. -/
def anyUsingPhone (persons : List PersonAnalysis) : Bool :=
  persons.any fun p => (p.phone_heuristic.map (·.is_phone_talking)).getD false

/-- Raw compliance category of one frame (lines 127-129): `unknown` when the
frame metric `total_persons` is zero, else any-hit on the rail. -/
def rawComplianceOf (phoneThreshold : ℚ) (packet : FramePacket) :
    ComplianceState :=
  if packet.metrics.total_persons = 0 then ComplianceState.unknown
  else if anyHoldingRail (packet.persons.map (recomputePerson phoneThreshold))
    then ComplianceState.compliant
  else ComplianceState.non_compliant

/-- Raw phone category of one frame (line 130). -/
def rawPhoneOf (phoneThreshold : ℚ) (packet : FramePacket) : PhoneState :=
  if anyUsingPhone (packet.persons.map (recomputePerson phoneThreshold))
    then PhoneState.phone
  else PhoneState.no_phone

/-- Raw state pair of one frame (line 131). -/
def rawStateOf (phoneThreshold : ℚ) (packet : FramePacket) : StateTuple :=
  (rawComplianceOf phoneThreshold packet, rawPhoneOf phoneThreshold packet)

/-- Recomputed phone count of a list of persons (lines 49 and 181). -/
def phoneCountOf (phoneThreshold : ℚ) (persons : List PersonAnalysis) : ℕ :=
  (persons.map (recomputePerson phoneThreshold)).countP
    fun p => (p.phone_heuristic.map (·.is_phone_talking)).getD false

/-- Translation of `determineEventType` (lines 230-241): the compliance axis
takes labelling priority over the phone axis. -/
def determineEventType (oldState newState : StateTuple) : String :=
  if oldState.1 ≠ newState.1 then
    if newState.1 = ComplianceState.compliant then "compliant_start"
    else "non_compliant_start"
  else if oldState.2 ≠ newState.2 then
    if newState.2 = PhoneState.phone then "phone_detected" else "phone_ended"
  else "state_change"

/-- Mutable loop state of `simulateDebounce` (lines 98-107). -/
structure LoopState where
  stableState : StateTuple
  pendingState : Option StateTuple
  pendingFrameCount : ℕ
  events : List SimulatedEvent
  processedPackets : List FramePacket
  compliantFrames : ℕ
  nonCompliantFrames : ℕ
  phoneFrames : ℕ
deriving DecidableEq

/-- Initial loop state (lines 98-107). -/
def initState : LoopState :=
  { stableState := (ComplianceState.unknown, PhoneState.unknown)
    pendingState := none
    pendingFrameCount := 0
    events := []
    processedPackets := []
    compliantFrames := 0
    nonCompliantFrames := 0
    phoneFrames := 0 }

/-- State machine branch of the loop body (lines 139-174), returning the new
`(stableState, pendingState, pendingFrameCount)`.  In the commit branch the
source executes `commitEvent = true;` on an identifier declared nowhere in the
module; in a strict-mode ES module this throws a `ReferenceError` before the
event is pushed, modelled as `Except.error ()`. -/
def machineUpdate (minFrames : ℤ) (stableState : StateTuple)
    (pendingState : Option StateTuple) (pendingFrameCount : ℕ)
    (rawState : StateTuple) :
    Except Unit (StateTuple × Option StateTuple × ℕ) :=
  if stableState = (ComplianceState.unknown, PhoneState.unknown) then
    if rawState.1 ≠ ComplianceState.unknown then
      Except.ok (rawState, pendingState, pendingFrameCount)
    else
      Except.ok (stableState, pendingState, pendingFrameCount)
  else if rawState ≠ stableState then
    if pendingState = some rawState then
      if ((pendingFrameCount + 1 : ℕ) : ℤ) ≥ minFrames then
        Except.error ()
      else
        Except.ok (stableState, pendingState, pendingFrameCount + 1)
    else
      Except.ok (stableState, some rawState, 1)
  else
    Except.ok (stableState, none, 0)

/-- The processed packet pushed at the end of the loop body (lines 176-189). -/
def processPacket (phoneThreshold debounceDuration : ℚ) (packet : FramePacket)
    (stable : StateTuple) (pending : Option StateTuple) (cnt : ℕ) :
    FramePacket :=
  { packet with
    persons := packet.persons.map (recomputePerson phoneThreshold)
    metrics := { packet.metrics with
      phone_count := phoneCountOf phoneThreshold packet.persons }
    state_machine := some
      { current_state := stable
        pending_state := pending
        time_in_pending := (cnt : ℚ) / (fps : ℚ)
        debounce_threshold := debounceDuration } }

/-- Loop state after a non-throwing iteration: the machine fields are replaced
by the `machineUpdate` output `out`, the per-frame statistics counters are
bumped from the raw categories (lines 134-136), and the processed packet is
appended (lines 176-189).  `events` is untouched: the only `events.push` in
the source sits after the throwing `commitEvent = true;` line and is
unreachable. -/
def assembleState (phoneThreshold debounceDuration : ℚ) (st : LoopState)
    (packet : FramePacket) (out : StateTuple × Option StateTuple × ℕ) :
    LoopState :=
  { stableState := out.1
    pendingState := out.2.1
    pendingFrameCount := out.2.2
    events := st.events
    processedPackets := st.processedPackets ++
      [processPacket phoneThreshold debounceDuration packet out.1 out.2.1
        out.2.2]
    compliantFrames :=
      if rawComplianceOf phoneThreshold packet = ComplianceState.compliant then
        st.compliantFrames + 1
      else st.compliantFrames
    nonCompliantFrames :=
      if rawComplianceOf phoneThreshold packet = ComplianceState.non_compliant
        then st.nonCompliantFrames + 1
      else st.nonCompliantFrames
    phoneFrames :=
      if rawPhoneOf phoneThreshold packet = PhoneState.phone then
        st.phoneFrames + 1
      else st.phoneFrames }

/-- One iteration of the `for (const packet of packets)` loop (lines 109-190). -/
def stepFrame (phoneThreshold : ℚ) (minFrames : ℤ) (debounceDuration : ℚ)
    (st : LoopState) (packet : FramePacket) : Except Unit LoopState :=
  match machineUpdate minFrames st.stableState st.pendingState
      st.pendingFrameCount (rawStateOf phoneThreshold packet) with
  | Except.error e => Except.error e
  | Except.ok out =>
    Except.ok (assembleState phoneThreshold debounceDuration st packet out)

/-- The run-length bound `minFrames = Math.ceil(debounceDuration * fps)`. -/
def minFramesFor (debounceDuration : ℚ) : ℤ :=
  Int.ceil (debounceDuration * (fps : ℚ))

/-- Translation of `simulateDebounce` (lines 72-203).  The `Except` layer
records that the source throws a `ReferenceError` on the first committed
transition (see `machineUpdate`); on every other input it returns normally. -/
def simulateDebounce (packets : List FramePacket) (phoneThreshold : ℚ)
    (debounceDuration : ℚ) : Except Unit SimulationResult :=
  if packets.isEmpty then
    Except.ok
      { packets := []
        events := []
        stats :=
          { totalFrames := 0, compliantFrames := 0, nonCompliantFrames := 0
            phoneFrames := 0, totalCommits := 0 } }
  else
    (packets.foldlM
        (stepFrame phoneThreshold (minFramesFor debounceDuration)
          debounceDuration) initState).map fun st =>
      { packets := st.processedPackets
        events := st.events
        stats :=
          { totalFrames := packets.length
            compliantFrames := st.compliantFrames
            nonCompliantFrames := st.nonCompliantFrames
            phoneFrames := st.phoneFrames
            totalCommits := st.events.length } }

/-- Translation of `compareParameters` (lines 246-265); the deltas are signed. -/
structure ComparisonDelta where
  phoneFramesChange : ℤ
  eventsChange : ℤ
deriving DecidableEq

/-- Wrapper record returned by `compareParameters`. -/
structure ComparisonResult where
  baselineStats : SimulationStats
  tunedStats : SimulationStats
  delta : ComparisonDelta
deriving DecidableEq

/-- Translation of `compareParameters` (lines 246-265). -/
def compareParameters (baselineStats tunedStats : SimulationStats) :
    ComparisonResult :=
  { baselineStats := baselineStats
    tunedStats := tunedStats
    delta :=
      { phoneFramesChange :=
          (tunedStats.phoneFrames : ℤ) - (baselineStats.phoneFrames : ℤ)
        eventsChange :=
          (tunedStats.totalCommits : ℤ) - (baselineStats.totalCommits : ℤ) } }

/-- Recorded stable state of a processed packet. -/
def currentStateOf (packet : FramePacket) : Option StateTuple :=
  packet.state_machine.map (·.current_state)

/-- Concrete frame whose raw state is `(non_compliant, no_phone)`: one person,
no rail hit, no phone measurement. -/
def ncFrame (n : ℕ) : FramePacket :=
  { frame_number := n
    timestamp_sec := (n : ℚ)
    metrics := { total_persons := 1, compliant_count := 0
                 non_compliant_count := 1, phone_count := 0
                 avg_confidence := 1 }
    persons := [{ person_id := 0, rail_hit_test := some { any_hit := false }
                  phone_heuristic := none }]
    state_machine := none }

/-- Concrete frame whose raw state is `(compliant, no_phone)`: one person
holding the rail, no phone measurement. -/
def cFrame (n : ℕ) : FramePacket :=
  { frame_number := n
    timestamp_sec := (n : ℚ)
    metrics := { total_persons := 1, compliant_count := 1
                 non_compliant_count := 0, phone_count := 0
                 avg_confidence := 1 }
    persons := [{ person_id := 0, rail_hit_test := some { any_hit := true }
                  phone_heuristic := none }]
    state_machine := none }

/-- Concrete frame with no persons: raw compliance is `unknown`. -/
def zFrame (n : ℕ) : FramePacket :=
  { frame_number := n
    timestamp_sec := (n : ℚ)
    metrics := { total_persons := 0, compliant_count := 0
                 non_compliant_count := 0, phone_count := 0
                 avg_confidence := 0 }
    persons := [], state_machine := none }

/-- Concrete frame with two persons: one holding the rail with a phone
measurement at distance 1, one with no rail hit and no measurement. -/
def mixedFrame (n : ℕ) : FramePacket :=
  { frame_number := n
    timestamp_sec := (n : ℚ)
    metrics := { total_persons := 2, compliant_count := 1
                 non_compliant_count := 1, phone_count := 0
                 avg_confidence := 1 }
    persons := [{ person_id := 0, rail_hit_test := some { any_hit := true }
                  phone_heuristic := some { min_distance := 1, threshold := 3
                                            is_phone_talking := false } },
                { person_id := 1, rail_hit_test := some { any_hit := false }
                  phone_heuristic := none }]
    state_machine := none }

/-- The concrete scenario of spec §8: frames 0-11 raw `(non_compliant,
no_phone)`, frames 12-19 `(compliant, no_phone)`, frames 20-23 reverted to
`(non_compliant, no_phone)`, frames 24-35 `(compliant, no_phone)` for 12
consecutive frames. -/
def scenarioPackets : List FramePacket :=
  ((List.range 12).map ncFrame) ++
  ((List.range 8).map fun i => cFrame (12 + i)) ++
  ((List.range 4).map fun i => ncFrame (20 + i)) ++
  ((List.range 12).map fun i => cFrame (24 + i))

/-- The stable state adopted after a cold start on `ncFrame`. -/
def stableNC : StateTuple := (ComplianceState.non_compliant, PhoneState.no_phone)

/-- Result of running `simulateDebounce [ncFrame 0, ncFrame 1] 0 1`. -/
def claim2Run : SimulationResult :=
  { packets := [processPacket 0 1 (ncFrame 0) stableNC none 0,
                processPacket 0 1 (ncFrame 1) stableNC none 0]
    events := []
    stats := { totalFrames := 2, compliantFrames := 0, nonCompliantFrames := 2
               phoneFrames := 0, totalCommits := 0 } }

/-- Result of running `simulateDebounce [mixedFrame 0] 1 2`: with threshold 1
the distance-1 measurement is not flagged (strict comparison). -/
def claim7Run1 : SimulationResult :=
  { packets := [processPacket 1 2 (mixedFrame 0)
      (ComplianceState.compliant, PhoneState.no_phone) none 0]
    events := []
    stats := { totalFrames := 1, compliantFrames := 1, nonCompliantFrames := 0
               phoneFrames := 0, totalCommits := 0 } }

/-- Result of running `simulateDebounce [mixedFrame 0] 3 2`: with threshold 3
the distance-1 measurement is flagged. -/
def claim7Run2 : SimulationResult :=
  { packets := [processPacket 3 2 (mixedFrame 0)
      (ComplianceState.compliant, PhoneState.phone) none 0]
    events := []
    stats := { totalFrames := 1, compliantFrames := 1, nonCompliantFrames := 0
               phoneFrames := 1, totalCommits := 0 } }

/-- Loop state after folding `[ncFrame 0]` from `initState` (threshold 0,
debounce duration 1). -/
def claim4PreState : LoopState :=
  { stableState := stableNC
    pendingState := none
    pendingFrameCount := 0
    events := []
    processedPackets := [processPacket 0 1 (ncFrame 0) stableNC none 0]
    compliantFrames := 0
    nonCompliantFrames := 1
    phoneFrames := 0 }

end StairsDemo
namespace StairsDemo

/-! Basic facts about `Except` and `foldlM` used throughout. -/

theorem exBind_ok {α β : Type} (a : α) (g : α → Except Unit β) :
    (Except.ok a >>= g) = g a := rfl

theorem exBind_error {α β : Type} (e : Unit) (g : α → Except Unit β) :
    ((Except.error e : Except Unit α) >>= g) = Except.error e := rfl

theorem exPure {α : Type} (a : α) : (pure a : Except Unit α) = Except.ok a :=
  rfl

theorem foldlM_ok_induct {σ α : Type} (f : σ → α → Except Unit σ)
    (P : σ → Prop) (hf : ∀ st a st', f st a = Except.ok st' → P st → P st') :
    ∀ (l : List α) (st st' : σ),
      List.foldlM f st l = Except.ok st' → P st → P st' := by
  intro l
  induction l with
  | nil =>
    intro st st' h hP
    rw [List.foldlM_nil, exPure] at h
    cases h
    exact hP
  | cons a l ih =>
    intro st st' h hP
    rw [List.foldlM_cons] at h
    cases hfa : f st a with
    | error e => rw [hfa, exBind_error] at h; cases h
    | ok st1 =>
      rw [hfa, exBind_ok] at h
      exact ih st1 st' h (hf st a st1 hfa hP)

theorem foldlM_ok_append {σ α : Type} (f : σ → α → Except Unit σ)
    (l1 l2 : List α) (st st2 : σ) :
    List.foldlM f st (l1 ++ l2) = Except.ok st2 ↔
      ∃ st1, List.foldlM f st l1 = Except.ok st1 ∧
        List.foldlM f st1 l2 = Except.ok st2 := by
  induction l1 generalizing st with
  | nil => simp [List.foldlM_nil, exPure]
  | cons a l ih =>
    simp only [List.cons_append, List.foldlM_cons]
    cases hfa : f st a with
    | error e =>
      rw [exBind_error, exBind_error]
      constructor
      · intro h; cases h
      · rintro ⟨st1, h1, h2⟩; cases h1
    | ok st1 => rw [exBind_ok, exBind_ok]; exact ih st1

end StairsDemo
namespace StairsDemo

/-! Case analysis of `machineUpdate` and `stepFrame`. -/

theorem machineUpdate_cold_adopt {mf : ℤ} {stable raw : StateTuple}
    {pending : Option StateTuple} {cnt : ℕ}
    (hst : stable = (ComplianceState.unknown, PhoneState.unknown)) (hraw : raw.1 ≠ ComplianceState.unknown) :
    machineUpdate mf stable pending cnt raw = Except.ok (raw, pending, cnt) := by
  simp [machineUpdate, hst, hraw]

theorem machineUpdate_cold_skip {mf : ℤ} {stable raw : StateTuple}
    {pending : Option StateTuple} {cnt : ℕ}
    (hst : stable = (ComplianceState.unknown, PhoneState.unknown)) (hraw : raw.1 = ComplianceState.unknown) :
    machineUpdate mf stable pending cnt raw =
      Except.ok (stable, pending, cnt) := by
  simp [machineUpdate, hst, hraw]

theorem machineUpdate_same {mf : ℤ} {stable raw : StateTuple}
    {pending : Option StateTuple} {cnt : ℕ}
    (hst : stable ≠ (ComplianceState.unknown, PhoneState.unknown)) (hraw : raw = stable) :
    machineUpdate mf stable pending cnt raw = Except.ok (stable, none, 0) := by
  simp [machineUpdate, hst, hraw]

theorem machineUpdate_newPending {mf : ℤ} {stable raw : StateTuple}
    {pending : Option StateTuple} {cnt : ℕ}
    (hst : stable ≠ (ComplianceState.unknown, PhoneState.unknown)) (hraw : raw ≠ stable)
    (hp : pending ≠ some raw) :
    machineUpdate mf stable pending cnt raw =
      Except.ok (stable, some raw, 1) := by
  unfold machineUpdate
  rw [if_neg hst, if_pos hraw,
    if_neg hp]

theorem machineUpdate_inc {mf : ℤ} {stable raw : StateTuple}
    {pending : Option StateTuple} {cnt : ℕ}
    (hst : stable ≠ (ComplianceState.unknown, PhoneState.unknown)) (hraw : raw ≠ stable)
    (hp : pending = some raw) (hlt : ((cnt + 1 : ℕ) : ℤ) < mf) :
    machineUpdate mf stable pending cnt raw =
      Except.ok (stable, pending, cnt + 1) := by
  unfold machineUpdate
  rw [if_neg hst, if_pos hraw,
    if_pos hp, if_neg (by omega)]

theorem machineUpdate_commit {mf : ℤ} {stable raw : StateTuple}
    {pending : Option StateTuple} {cnt : ℕ}
    (hst : stable ≠ (ComplianceState.unknown, PhoneState.unknown)) (hraw : raw ≠ stable)
    (hp : pending = some raw) (hge : ((cnt + 1 : ℕ) : ℤ) ≥ mf) :
    machineUpdate mf stable pending cnt raw = Except.error () := by
  unfold machineUpdate
  rw [if_neg hst, if_pos hraw,
    if_pos hp, if_pos hge]

theorem machineUpdate_ok_cases {mf : ℤ} {stable raw : StateTuple}
    {pending : Option StateTuple} {cnt : ℕ}
    {out : StateTuple × Option StateTuple × ℕ}
    (h : machineUpdate mf stable pending cnt raw = Except.ok out) :
    out.1 = stable ∨
      (stable = (ComplianceState.unknown, PhoneState.unknown) ∧ out.1 = raw ∧
        raw.1 ≠ ComplianceState.unknown) := by
  unfold machineUpdate at h
  by_cases h1 : stable = (ComplianceState.unknown, PhoneState.unknown)
  · rw [if_pos h1] at h
    by_cases h2 : raw.1 ≠ ComplianceState.unknown
    · rw [if_pos h2] at h
      cases h
      exact Or.inr ⟨h1, rfl, h2⟩
    · rw [if_neg h2] at h
      cases h
      exact Or.inl rfl
  · rw [if_neg h1] at h
    by_cases h2 : raw ≠ stable
    · rw [if_pos h2] at h
      by_cases h3 : pending = some raw
      · rw [if_pos h3] at h
        by_cases h4 : ((cnt + 1 : ℕ) : ℤ) ≥ mf
        · rw [if_pos h4] at h; cases h
        · rw [if_neg h4] at h; cases h; exact Or.inl rfl
      · rw [if_neg h3] at h; cases h; exact Or.inl rfl
    · rw [if_neg h2] at h; cases h; exact Or.inl rfl

theorem rawPhoneOf_ne_unknown (t : ℚ) (p : FramePacket) :
    rawPhoneOf t p ≠ PhoneState.unknown := by
  unfold rawPhoneOf
  split <;> simp

end StairsDemo
namespace StairsDemo

/-! Structure of a successful `stepFrame` and of successful folds. -/

theorem stepFrame_ok_iff {t : ℚ} {mf : ℤ} {d : ℚ} {st st' : LoopState}
    {p : FramePacket} :
    stepFrame t mf d st p = Except.ok st' ↔
      ∃ out, machineUpdate mf st.stableState st.pendingState
          st.pendingFrameCount (rawStateOf t p) = Except.ok out ∧
        st' = assembleState t d st p out := by
  unfold stepFrame
  cases h : machineUpdate mf st.stableState st.pendingState
      st.pendingFrameCount (rawStateOf t p) with
  | error e =>
    constructor
    · intro hh; cases hh
    · rintro ⟨out, hout, -⟩; cases hout
  | ok out =>
    constructor
    · intro hh; cases hh; exact ⟨out, rfl, rfl⟩
    · rintro ⟨out', hout, rfl⟩; cases hout; rfl

theorem currentStateOf_processPacket (t d : ℚ) (p : FramePacket)
    (stable : StateTuple) (pending : Option StateTuple) (cnt : ℕ) :
    currentStateOf (processPacket t d p stable pending cnt) = some stable :=
  rfl

theorem stepFrame_ok_events {t : ℚ} {mf : ℤ} {d : ℚ} {st st' : LoopState}
    {p : FramePacket} (h : stepFrame t mf d st p = Except.ok st') :
    st'.events = st.events := by
  rcases stepFrame_ok_iff.1 h with ⟨out, -, rfl⟩
  rfl

theorem stepFrame_ok_processed {t : ℚ} {mf : ℤ} {d : ℚ} {st st' : LoopState}
    {p : FramePacket} (h : stepFrame t mf d st p = Except.ok st') :
    ∃ q, st'.processedPackets = st.processedPackets ++ [q] ∧
      currentStateOf q = some st'.stableState := by
  rcases stepFrame_ok_iff.1 h with ⟨out, -, rfl⟩
  exact ⟨_, rfl, rfl⟩

theorem stepFrame_ok_frozen {t : ℚ} {mf : ℤ} {d : ℚ} {st st' : LoopState}
    {p : FramePacket}
    (hst : st.stableState ≠ (ComplianceState.unknown, PhoneState.unknown))
    (h : stepFrame t mf d st p = Except.ok st') :
    st'.stableState = st.stableState := by
  rcases stepFrame_ok_iff.1 h with ⟨out, hout, rfl⟩
  rcases machineUpdate_ok_cases hout with h1 | ⟨h1, -, -⟩
  · exact h1
  · exact absurd h1 hst

theorem stepFrame_ok_stable_cases {t : ℚ} {mf : ℤ} {d : ℚ}
    {st st' : LoopState} {p : FramePacket}
    (h : stepFrame t mf d st p = Except.ok st') :
    st'.stableState = st.stableState ∨
      (st.stableState = (ComplianceState.unknown, PhoneState.unknown) ∧
        st'.stableState.1 ≠ ComplianceState.unknown ∧
        st'.stableState.2 ≠ PhoneState.unknown) := by
  rcases stepFrame_ok_iff.1 h with ⟨out, hout, rfl⟩
  rcases machineUpdate_ok_cases hout with h1 | ⟨h1, h2, h3⟩
  · exact Or.inl h1
  · refine Or.inr ⟨h1, ?_, ?_⟩
    · show out.1.1 ≠ ComplianceState.unknown
      rw [h2]; exact h3
    · show out.1.2 ≠ PhoneState.unknown
      rw [h2]; exact rawPhoneOf_ne_unknown t p

theorem stepFrame_ok_phoneFrames {t : ℚ} {mf : ℤ} {d : ℚ}
    {st st' : LoopState} {p : FramePacket}
    (h : stepFrame t mf d st p = Except.ok st') :
    st'.phoneFrames =
      if rawPhoneOf t p = PhoneState.phone then st.phoneFrames + 1
      else st.phoneFrames := by
  rcases stepFrame_ok_iff.1 h with ⟨out, -, rfl⟩
  rfl

theorem fold_ok_events {t : ℚ} {mf : ℤ} {d : ℚ} {l : List FramePacket}
    {st st' : LoopState}
    (h : List.foldlM (stepFrame t mf d) st l = Except.ok st') :
    st'.events = st.events := by
  induction l generalizing st with
  | nil => rw [List.foldlM_nil, exPure] at h; cases h; rfl
  | cons p l ih =>
    rw [List.foldlM_cons] at h
    cases hp : stepFrame t mf d st p with
    | error e => rw [hp, exBind_error] at h; cases h
    | ok st1 =>
      rw [hp, exBind_ok] at h
      rw [ih h, stepFrame_ok_events hp]

theorem fold_ok_phoneFrames {t : ℚ} {mf : ℤ} {d : ℚ} {l : List FramePacket}
    {st st' : LoopState}
    (h : List.foldlM (stepFrame t mf d) st l = Except.ok st') :
    st'.phoneFrames = st.phoneFrames +
      l.countP (fun q => decide (rawPhoneOf t q = PhoneState.phone)) := by
  induction l generalizing st with
  | nil => rw [List.foldlM_nil, exPure] at h; cases h; simp
  | cons p l ih =>
    rw [List.foldlM_cons] at h
    cases hp : stepFrame t mf d st p with
    | error e => rw [hp, exBind_error] at h; cases h
    | ok st1 =>
      rw [hp, exBind_ok] at h
      rw [ih h, stepFrame_ok_phoneFrames hp, List.countP_cons]
      by_cases hq : rawPhoneOf t p = PhoneState.phone
      · simp [hq]; omega
      · simp [hq]

theorem fold_ok_frozen {t : ℚ} {mf : ℤ} {d : ℚ} {l : List FramePacket}
    {st st' : LoopState}
    (hst : st.stableState ≠ (ComplianceState.unknown, PhoneState.unknown))
    (h : List.foldlM (stepFrame t mf d) st l = Except.ok st') :
    st'.stableState = st.stableState ∧
      ∃ suf, st'.processedPackets = st.processedPackets ++ suf ∧
        ∀ q ∈ suf, currentStateOf q = some st.stableState := by
  induction l generalizing st with
  | nil =>
    rw [List.foldlM_nil, exPure] at h; cases h
    exact ⟨rfl, [], by simp⟩
  | cons p l ih =>
    rw [List.foldlM_cons] at h
    cases hp : stepFrame t mf d st p with
    | error e => rw [hp, exBind_error] at h; cases h
    | ok st1 =>
      rw [hp, exBind_ok] at h
      have h1 : st1.stableState = st.stableState := stepFrame_ok_frozen hst hp
      have hst1 : st1.stableState ≠
          (ComplianceState.unknown, PhoneState.unknown) := by
        rw [h1]; exact hst
      rcases ih hst1 h with ⟨hA, suf, hB, hC⟩
      rcases stepFrame_ok_processed hp with ⟨q, hq1, hq2⟩
      refine ⟨by rw [hA, h1], q :: suf, ?_, ?_⟩
      · rw [hB, hq1, List.append_assoc, List.singleton_append]
      · intro x hx
        rcases List.mem_cons.1 hx with rfl | hx
        · rw [hq2, h1]
        · rw [hC x hx, h1]

end StairsDemo
namespace StairsDemo

/-! Unfolding `simulateDebounce` to the underlying fold. -/

theorem simulateDebounce_ok_of_fold {packets : List FramePacket} {t d : ℚ}
    {st : LoopState} (hne : packets ≠ [])
    (h : List.foldlM (stepFrame t (minFramesFor d) d) initState packets =
      Except.ok st) :
    simulateDebounce packets t d = Except.ok
      { packets := st.processedPackets
        events := st.events
        stats :=
          { totalFrames := packets.length
            compliantFrames := st.compliantFrames
            nonCompliantFrames := st.nonCompliantFrames
            phoneFrames := st.phoneFrames
            totalCommits := st.events.length } } := by
  unfold simulateDebounce
  rw [if_neg (by simpa using hne), h]
  rfl

theorem simulateDebounce_ok_inv {packets : List FramePacket} {t d : ℚ}
    {r : SimulationResult} (h : simulateDebounce packets t d = Except.ok r) :
    (packets = [] ∧ r.packets = [] ∧ r.events = [] ∧
      r.stats = { totalFrames := 0, compliantFrames := 0
                  nonCompliantFrames := 0, phoneFrames := 0
                  totalCommits := 0 }) ∨
    ∃ st, List.foldlM (stepFrame t (minFramesFor d) d) initState packets =
        Except.ok st ∧
      r.packets = st.processedPackets ∧ r.events = st.events ∧
      r.stats = { totalFrames := packets.length
                  compliantFrames := st.compliantFrames
                  nonCompliantFrames := st.nonCompliantFrames
                  phoneFrames := st.phoneFrames
                  totalCommits := st.events.length } := by
  unfold simulateDebounce at h
  by_cases hne : packets = []
  · rw [if_pos (by simp [hne])] at h
    cases h
    exact Or.inl ⟨hne, rfl, rfl, rfl⟩
  · rw [if_neg (by simpa using hne)] at h
    cases hf : List.foldlM (stepFrame t (minFramesFor d) d) initState
        packets with
    | error e => rw [hf] at h; cases h
    | ok st =>
      rw [hf] at h
      cases h
      exact Or.inr ⟨st, rfl, rfl, rfl, rfl⟩

end StairsDemo
namespace StairsDemo

/-! Forward runs of the machine on homogeneous frame blocks. -/

theorem sameRawFold {t : ℚ} {mf : ℤ} {d : ℚ} (l : List FramePacket) :
    ∀ st : LoopState,
      st.stableState ≠ (ComplianceState.unknown, PhoneState.unknown) →
      (∀ q ∈ l, rawStateOf t q = st.stableState) →
      ∃ st', List.foldlM (stepFrame t mf d) st l = Except.ok st' ∧
        st'.stableState = st.stableState ∧ st'.events = st.events ∧
        ∃ suf, st'.processedPackets = st.processedPackets ++ suf ∧
          ∀ q ∈ suf, currentStateOf q = some st.stableState := by
  induction l with
  | nil =>
    intro st hst _
    exact ⟨st, by rw [List.foldlM_nil, exPure], rfl, rfl, [], by simp⟩
  | cons p l ih =>
    intro st hst hraw
    have hstep : stepFrame t mf d st p = Except.ok
        (assembleState t d st p (st.stableState, none, 0)) := by
      rw [stepFrame_ok_iff]
      exact ⟨(st.stableState, none, 0),
        machineUpdate_same hst (hraw p (List.mem_cons_self p l)), rfl⟩
    set st1 := assembleState t d st p (st.stableState, none, 0) with hst1
    have h1 : st1.stableState = st.stableState := rfl
    rcases ih st1 (by rw [h1]; exact hst)
        (fun q hq => by rw [h1]; exact hraw q (List.mem_cons_of_mem p hq))
      with ⟨st', hfold, hA, hB, suf, hC, hD⟩
    refine ⟨st', ?_, by rw [hA, h1], by rw [hB]; rfl, ?_⟩
    · rw [List.foldlM_cons, hstep, exBind_ok]; exact hfold
    · refine ⟨processPacket t d p st.stableState none 0 :: suf, ?_, ?_⟩
      · rw [hC, hst1]
        show st.processedPackets ++
            [processPacket t d p st.stableState none 0] ++ suf = _
        rw [List.append_assoc, List.singleton_append]
      · intro x hx
        rcases List.mem_cons.1 hx with rfl | hx
        · rfl
        · rw [hD x hx, h1]

theorem flipFold {t : ℚ} {mf : ℤ} {d : ℚ} {tt : StateTuple}
    (l : List FramePacket) :
    ∀ (st : LoopState) (c : ℕ),
      st.stableState ≠ (ComplianceState.unknown, PhoneState.unknown) →
      tt ≠ st.stableState →
      st.pendingState = some tt → st.pendingFrameCount = c →
      (∀ q ∈ l, rawStateOf t q = tt) →
      ((c + l.length : ℕ) : ℤ) < mf →
      ∃ st', List.foldlM (stepFrame t mf d) st l = Except.ok st' ∧
        st'.stableState = st.stableState ∧
        st'.pendingState = some tt ∧
        st'.pendingFrameCount = c + l.length ∧
        st'.events = st.events ∧
        ∃ suf, st'.processedPackets = st.processedPackets ++ suf ∧
          ∀ q ∈ suf, currentStateOf q = some st.stableState := by
  induction l with
  | nil =>
    intro st c hst htt hp hc _ _
    exact ⟨st, by rw [List.foldlM_nil, exPure], rfl, hp, by simpa using hc,
      rfl, [], by simp⟩
  | cons p l ih =>
    intro st c hst htt hp hc hraw hbound
    have hrawp : rawStateOf t p = tt := hraw p (List.mem_cons_self p l)
    have hmu : machineUpdate mf st.stableState st.pendingState
        st.pendingFrameCount (rawStateOf t p) =
        Except.ok (st.stableState, st.pendingState, st.pendingFrameCount + 1)
      := by
      refine machineUpdate_inc hst (by rw [hrawp]; exact htt)
        (by rw [hrawp]; exact hp) ?_
      rw [hc]
      simp only [List.length_cons] at hbound
      push_cast at hbound ⊢
      omega
    have hstep : stepFrame t mf d st p = Except.ok
        (assembleState t d st p
          (st.stableState, st.pendingState, st.pendingFrameCount + 1)) := by
      rw [stepFrame_ok_iff]
      exact ⟨_, hmu, rfl⟩
    set st1 := assembleState t d st p
      (st.stableState, st.pendingState, st.pendingFrameCount + 1) with hst1
    have h1 : st1.stableState = st.stableState := rfl
    have h2 : st1.pendingState = st.pendingState := rfl
    have h3 : st1.pendingFrameCount = st.pendingFrameCount + 1 := rfl
    rcases ih st1 (c + 1) (by rw [h1]; exact hst) (by rw [h1]; exact htt)
        (by rw [h2]; exact hp) (by rw [h3, hc])
        (fun q hq => hraw q (List.mem_cons_of_mem p hq))
        (by simp only [List.length_cons] at hbound; push_cast at hbound ⊢; omega)
      with ⟨st', hfold, hA, hB, hC, hD, suf, hE, hF⟩
    refine ⟨st', ?_, by rw [hA, h1], hB, ?_, by rw [hD]; rfl, ?_⟩
    · rw [List.foldlM_cons, hstep, exBind_ok]; exact hfold
    · rw [hC]; simp; omega
    · refine ⟨processPacket t d p st.stableState st.pendingState
        (st.pendingFrameCount + 1) :: suf, ?_, ?_⟩
      · rw [hE, hst1]
        show st.processedPackets ++ [_] ++ suf = _
        rw [List.append_assoc, List.singleton_append]
      · intro x hx
        rcases List.mem_cons.1 hx with rfl | hx
        · rfl
        · rw [hF x hx, h1]

theorem preFold {t : ℚ} {mf : ℤ} {d : ℚ} (l : List FramePacket) :
    ∀ st : LoopState,
      st.stableState = (ComplianceState.unknown, PhoneState.unknown) →
      (∀ q ∈ l, rawComplianceOf t q = ComplianceState.unknown) →
      ∃ st', List.foldlM (stepFrame t mf d) st l = Except.ok st' ∧
        st'.stableState = st.stableState ∧
        st'.pendingState = st.pendingState ∧
        st'.pendingFrameCount = st.pendingFrameCount ∧
        st'.events = st.events := by
  induction l with
  | nil =>
    intro st hst _
    exact ⟨st, by rw [List.foldlM_nil, exPure], rfl, rfl, rfl, rfl⟩
  | cons p l ih =>
    intro st hst hraw
    have hmu : machineUpdate mf st.stableState st.pendingState
        st.pendingFrameCount (rawStateOf t p) =
        Except.ok (st.stableState, st.pendingState, st.pendingFrameCount) :=
      machineUpdate_cold_skip hst (hraw p (List.mem_cons_self p l))
    have hstep : stepFrame t mf d st p = Except.ok
        (assembleState t d st p
          (st.stableState, st.pendingState, st.pendingFrameCount)) := by
      rw [stepFrame_ok_iff]
      exact ⟨_, hmu, rfl⟩
    set st1 := assembleState t d st p
      (st.stableState, st.pendingState, st.pendingFrameCount) with hst1
    rcases ih st1 (by rw [show st1.stableState = st.stableState from rfl]; exact hst)
        (fun q hq => hraw q (List.mem_cons_of_mem p hq))
      with ⟨st', hfold, hA, hB, hC, hD⟩
    exact ⟨st', by rw [List.foldlM_cons, hstep, exBind_ok]; exact hfold,
      by rw [hA]; rfl, by rw [hB]; rfl, by rw [hC]; rfl, by rw [hD]; rfl⟩

end StairsDemo
namespace StairsDemo

/-! The shape of the recorded stable-state trace: a block of
`(unknown, unknown)` frames followed by a block of one adopted state whose
axes are both live. -/

theorem traceShape {t : ℚ} {mf : ℤ} {d : ℚ} {l : List FramePacket}
    {st' : LoopState}
    (h : List.foldlM (stepFrame t mf d) initState l = Except.ok st') :
    (st'.stableState = (ComplianceState.unknown, PhoneState.unknown) ∧
      ∀ q ∈ st'.processedPackets, currentStateOf q =
        some (ComplianceState.unknown, PhoneState.unknown)) ∨
    (st'.stableState.1 ≠ ComplianceState.unknown ∧
      st'.stableState.2 ≠ PhoneState.unknown ∧
      ∃ k m, st'.processedPackets.map currentStateOf =
        List.replicate k (some (ComplianceState.unknown, PhoneState.unknown))
          ++ List.replicate m (some st'.stableState)) := by
  refine foldlM_ok_induct (stepFrame t mf d)
    (fun st =>
      (st.stableState = (ComplianceState.unknown, PhoneState.unknown) ∧
        ∀ q ∈ st.processedPackets, currentStateOf q =
          some (ComplianceState.unknown, PhoneState.unknown)) ∨
      (st.stableState.1 ≠ ComplianceState.unknown ∧
        st.stableState.2 ≠ PhoneState.unknown ∧
        ∃ k m, st.processedPackets.map currentStateOf =
          List.replicate k
              (some (ComplianceState.unknown, PhoneState.unknown)) ++
            List.replicate m (some st.stableState)))
    ?_ l initState st' h (Or.inl ⟨rfl, by simp [initState]⟩)
  intro st p st1 hstep hP
  rcases stepFrame_ok_processed hstep with ⟨q, hq1, hq2⟩
  rcases stepFrame_ok_stable_cases hstep with hsame | ⟨hUU, hA1, hA2⟩
  · rcases hP with ⟨hstUU, hall⟩ | ⟨hB1, hB2, k, m, hmap⟩
    · refine Or.inl ⟨by rw [hsame, hstUU], ?_⟩
      intro x hx
      rw [hq1] at hx
      rcases List.mem_append.1 hx with hx | hx
      · exact hall x hx
      · rw [List.mem_singleton.1 hx, hq2, hsame, hstUU]
    · refine Or.inr ⟨by rw [hsame]; exact hB1, by rw [hsame]; exact hB2,
        k, m + 1, ?_⟩
      rw [hq1, List.map_append, hmap, List.map_singleton, hq2,
        List.replicate_succ', hsame, List.append_assoc]
  · rcases hP with ⟨hstUU, hall⟩ | ⟨hB1, hB2, k, m, hmap⟩
    · refine Or.inr ⟨hA1, hA2, st.processedPackets.length, 1, ?_⟩
      rw [hq1, List.map_append, List.map_singleton, hq2]
      congr 1
      rw [List.eq_replicate_iff]
      refine ⟨by rw [List.length_map], ?_⟩
      intro b hb
      rcases List.mem_map.1 hb with ⟨x, hx, rfl⟩
      exact hall x hx
    · exact absurd hUU (by intro hc; rw [hc] at hB1; exact hB1 rfl)

end StairsDemo
namespace StairsDemo

/-! Per-frame facts about the raw signal deriver. -/

theorem recomputedFlag (p : PersonAnalysis) (t : ℚ) :
    ((recomputePerson t p).phone_heuristic.map (·.is_phone_talking)).getD false
      = recomputePhoneForPerson p.phone_heuristic t := by
  cases hp : p.phone_heuristic with
  | none => simp [recomputePerson, recomputePhoneForPerson, hp]
  | some h => simp [recomputePerson, recomputePhoneForPerson, hp]

theorem anyUsing_recompute (t : ℚ) (persons : List PersonAnalysis) :
    anyUsingPhone (persons.map (recomputePerson t)) =
      persons.any fun p => recomputePhoneForPerson p.phone_heuristic t := by
  unfold anyUsingPhone
  rw [List.any_map]
  congr 1
  funext p
  exact recomputedFlag p t

theorem anyHolding_recompute (t : ℚ) (persons : List PersonAnalysis) :
    anyHoldingRail (persons.map (recomputePerson t)) =
      anyHoldingRail persons := by
  unfold anyHoldingRail
  rw [List.any_map]
  rfl

theorem phoneCountOf_eq (t : ℚ) (persons : List PersonAnalysis) :
    phoneCountOf t persons =
      persons.countP fun p => recomputePhoneForPerson p.phone_heuristic t := by
  unfold phoneCountOf
  rw [List.countP_map]
  congr 1
  funext p
  exact recomputedFlag p t

theorem rawPhoneOf_eq_phone_iff (t : ℚ) (packet : FramePacket) :
    rawPhoneOf t packet = PhoneState.phone ↔
      (packet.persons.any fun p =>
        recomputePhoneForPerson p.phone_heuristic t) = true := by
  unfold rawPhoneOf
  rw [anyUsing_recompute]
  split <;> simp_all

theorem recomputePhoneForPerson_mono {t1 t2 : ℚ}
    (ph : Option PhoneHeuristicResult) (hle : t1 ≤ t2)
    (h : recomputePhoneForPerson ph t1 = true) :
    recomputePhoneForPerson ph t2 = true := by
  cases ph with
  | none => simp [recomputePhoneForPerson] at h
  | some hh =>
    simp only [recomputePhoneForPerson, decide_eq_true_eq] at h ⊢
    exact lt_of_lt_of_le h hle

theorem rawPhoneOf_mono {t1 t2 : ℚ} (q : FramePacket) (hle : t1 ≤ t2)
    (h : rawPhoneOf t1 q = PhoneState.phone) :
    rawPhoneOf t2 q = PhoneState.phone := by
  rw [rawPhoneOf_eq_phone_iff] at h ⊢
  rw [List.any_eq_true] at h ⊢
  rcases h with ⟨p, hp, hflag⟩
  exact ⟨p, hp, recomputePhoneForPerson_mono p.phone_heuristic hle hflag⟩

end StairsDemo
namespace StairsDemo

/-- Claim C1 (code_bug evidence): `simulateDebounce` is not exception-free.
On the three-frame input `[ncFrame 0, cFrame 1, cFrame 2]` with the valid
parameters `phoneThreshold = 0.05 ≥ 0` and `debounceDuration = 1/24 > 0`
(so `minRunLength = 1`), the run reaches the commit branch at frame 2 and
throws there (the `commitEvent = true;` assignment to an undeclared
identifier), instead of returning a result. -/
theorem claim1_simulateDebounce_commit_raises :
    simulateDebounce [ncFrame 0, cFrame 1, cFrame 2] (5 / 100) (1 / 24) =
      Except.error () := by
  have h1 : minFramesFor (1 / 24) = 1 := by unfold minFramesFor fps; norm_num
  simp only [simulateDebounce]
  rw [h1]
  rfl

/-- Claim C3 (code_bug evidence): on the §8 scenario (frames 0-11 raw
`(non_compliant, no_phone)`, 12-19 compliant, 20-23 reverted, 24-35 compliant
for exactly `minRunLength = 12` frames, `debounceDuration = 0.5`), the code
does not emit one CommittedEvent at frame 35: it throws at the frame-35
commit (`commitEvent` is undeclared) before any event can be pushed. -/
theorem claim3_scenario_commit_raises :
    simulateDebounce scenarioPackets (5 / 100) (1 / 2) = Except.error () := by
  have h12 : minFramesFor (1 / 2) = 12 := by unfold minFramesFor fps; norm_num
  simp only [simulateDebounce]
  rw [h12]
  rfl

/-- Claim C8: for every parameter pair, `simulateDebounce` on the empty frame
sequence returns zero-filled stats, an empty event list and an empty processed
sequence, and does not fail. -/
theorem claim8_empty_input (phoneThreshold debounceDuration : ℚ) :
    simulateDebounce [] phoneThreshold debounceDuration = Except.ok
      { packets := []
        events := []
        stats := { totalFrames := 0, compliantFrames := 0
                   nonCompliantFrames := 0, phoneFrames := 0
                   totalCommits := 0 } } := rfl

/-- Claim C9: `compareParameters` returns
`phoneFramesChange = tuned.phoneFrames - baseline.phoneFrames` and
`eventsChange = tuned.totalCommits - baseline.totalCommits`, and swapping the
arguments negates each delta. -/
theorem claim9_compare_deltas (A B : SimulationStats) :
    (compareParameters A B).delta.phoneFramesChange =
        (B.phoneFrames : ℤ) - (A.phoneFrames : ℤ) ∧
      (compareParameters A B).delta.eventsChange =
        (B.totalCommits : ℤ) - (A.totalCommits : ℤ) ∧
      (compareParameters A B).delta.phoneFramesChange =
        -(compareParameters B A).delta.phoneFramesChange ∧
      (compareParameters A B).delta.eventsChange =
        -(compareParameters B A).delta.eventsChange := by
  refine ⟨rfl, rfl, ?_, ?_⟩ <;> simp [compareParameters]

/-- Claim C6: per-frame raw signal derivation.  For a frame whose
`total_persons` metric is consistent with its person list: the per-person
phone flag is the strict comparison `min_distance < threshold`; the recomputed
phone count is the number of flagged persons; raw compliance is `unknown`
exactly for a frame with zero persons and otherwise `compliant` exactly when
some person has a rail hit (any-hit); raw phone is `phone` exactly when some
person is flagged. -/
theorem claim6_raw_signal_derivation (t : ℚ) (packet : FramePacket)
    (hm : packet.metrics.total_persons = packet.persons.length) :
    (∀ p ∈ packet.persons, ∀ h, p.phone_heuristic = some h →
      (recomputePhoneForPerson p.phone_heuristic t = true ↔
        h.min_distance < t)) ∧
    phoneCountOf t packet.persons = packet.persons.countP
      (fun p => recomputePhoneForPerson p.phone_heuristic t) ∧
    (rawComplianceOf t packet = ComplianceState.unknown ↔
      packet.persons = []) ∧
    (packet.persons ≠ [] →
      (rawComplianceOf t packet = ComplianceState.compliant ↔
        ∃ p ∈ packet.persons, ∃ rh, p.rail_hit_test = some rh ∧
          rh.any_hit = true)) ∧
    (rawPhoneOf t packet = PhoneState.phone ↔
      ∃ p ∈ packet.persons,
        recomputePhoneForPerson p.phone_heuristic t = true) := by
  refine ⟨?_, phoneCountOf_eq t packet.persons, ?_, ?_, ?_⟩
  · intro p _ h hp
    simp [recomputePhoneForPerson, hp]
  · unfold rawComplianceOf
    rw [hm]
    by_cases hz : packet.persons.length = 0
    · simp [hz, List.length_eq_zero.1 hz]
    · rw [if_neg hz]
      constructor
      · intro hc
        split at hc <;> cases hc
      · intro hc
        exact absurd (by rw [hc]; rfl) hz
  · intro hne
    unfold rawComplianceOf
    rw [hm, if_neg (by simpa [List.length_eq_zero] using hne),
      anyHolding_recompute]
    unfold anyHoldingRail
    by_cases hany : (packet.persons.any
        fun p => (p.rail_hit_test.map (·.any_hit)).getD false) = true
    · rw [hany]
      simp only [if_true, true_iff]
      rcases List.any_eq_true.1 hany with ⟨p, hp, hflag⟩
      refine ⟨p, hp, ?_⟩
      cases hrt : p.rail_hit_test with
      | none => rw [hrt] at hflag; cases hflag
      | some rh => rw [hrt] at hflag; exact ⟨rh, rfl, hflag⟩
    · rw [Bool.not_eq_true] at hany
      rw [hany]
      rw [if_neg (by simp)]
      constructor
      · intro hc; cases hc
      · rintro ⟨p, hp, rh, hrt, hhit⟩
        exfalso
        have : (packet.persons.any
            fun p => (p.rail_hit_test.map (·.any_hit)).getD false) = true :=
          List.any_eq_true.2 ⟨p, hp, by rw [hrt]; exact hhit⟩
        rw [this] at hany; cases hany
  · rw [rawPhoneOf_eq_phone_iff, List.any_eq_true]

/-- Witness for C6 at the concrete frame `mixedFrame 0` with threshold 3:
the consistency hypothesis holds and the recomputed phone count is the
number of flagged persons. -/
theorem claim6_witness :
    (mixedFrame 0).metrics.total_persons = (mixedFrame 0).persons.length ∧
      phoneCountOf 3 (mixedFrame 0).persons = (mixedFrame 0).persons.countP
        (fun p => recomputePhoneForPerson p.phone_heuristic 3) :=
  ⟨by decide, (claim6_raw_signal_derivation 3 (mixedFrame 0) (by decide)).2.1⟩

end StairsDemo
namespace StairsDemo

/-- Claim C2: for every run of `simulateDebounce` that returns, the stable
state starts at `(unknown, unknown)` and, whenever the recorded stable state
at frame `i` has a non-unknown axis, the recorded stable state at every later
frame `j ≥ i` of the run keeps that axis non-unknown. -/
theorem claim2_stable_axis_never_returns_unknown
    (packets : List FramePacket) (t d : ℚ) (r : SimulationResult)
    (i j : ℕ) (qi qj : FramePacket) (si sj : StateTuple)
    (hr : simulateDebounce packets t d = Except.ok r) (hij : i ≤ j)
    (hqi : r.packets[i]? = some qi) (hqj : r.packets[j]? = some qj)
    (hsi : currentStateOf qi = some si)
    (hsj : currentStateOf qj = some sj) :
    initState.stableState = (ComplianceState.unknown, PhoneState.unknown) ∧
      (si.1 ≠ ComplianceState.unknown → sj.1 ≠ ComplianceState.unknown) ∧
      (si.2 ≠ PhoneState.unknown → sj.2 ≠ PhoneState.unknown) := by
  refine ⟨rfl, ?_⟩
  rcases simulateDebounce_ok_inv hr with ⟨-, hnil, -, -⟩ | ⟨st, hfold, hpk, -, -⟩
  · rw [hnil] at hqi
    simp at hqi
  · rw [hpk] at hqi hqj
    have hmi : (st.processedPackets.map currentStateOf)[i]? = some (some si) := by
      rw [List.getElem?_map, hqi, Option.map_some', hsi]
    have hmj : (st.processedPackets.map currentStateOf)[j]? = some (some sj) := by
      rw [List.getElem?_map, hqj, Option.map_some', hsj]
    rcases traceShape hfold with ⟨-, hall⟩ | ⟨h1, h2, k, m, hmap⟩
    · have hub : si = (ComplianceState.unknown, PhoneState.unknown) := by
        have hqimem : qi ∈ st.processedPackets := by
          have := List.getElem?_mem hqi
          exact this
        have := hall qi hqimem
        rw [hsi] at this
        exact Option.some.inj this
      constructor
      · intro hne; exact absurd (by rw [hub]) hne
      · intro hne; exact absurd (by rw [hub]) hne
    · rw [hmap] at hmi hmj
      rw [List.getElem?_append] at hmi hmj
      by_cases hik : i < k
      · rw [if_pos (by rw [List.length_replicate]; exact hik),
          List.getElem?_replicate, if_pos hik] at hmi
        have hub : si = (ComplianceState.unknown, PhoneState.unknown) :=
          (Option.some.inj (Option.some.inj hmi)).symm
        constructor
        · intro hne; exact absurd (by rw [hub]) hne
        · intro hne; exact absurd (by rw [hub]) hne
      · rw [if_neg (by rw [List.length_replicate]; exact hik),
          List.length_replicate, List.getElem?_replicate] at hmi
        have hjk : ¬ j < k := by omega
        rw [if_neg (by rw [List.length_replicate]; exact hjk),
          List.length_replicate, List.getElem?_replicate] at hmj
        by_cases hi2 : i - k < m
        · rw [if_pos hi2] at hmi
          by_cases hj2 : j - k < m
          · rw [if_pos hj2] at hmj
            have hsieq : si = st.stableState :=
              (Option.some.inj (Option.some.inj hmi)).symm
            have hsjeq : sj = st.stableState :=
              (Option.some.inj (Option.some.inj hmj)).symm
            rw [hsieq, hsjeq]
            exact ⟨fun _ => h1, fun _ => h2⟩
          · rw [if_neg hj2] at hmj; cases hmj
        · rw [if_neg hi2] at hmi; cases hmi

/-- Witness for C2: the two-frame run `[ncFrame 0, ncFrame 1]` with threshold
0 and debounce duration 1 adopts `(non_compliant, no_phone)` at frame 0 and
keeps both axes non-unknown at frame 1. -/
theorem claim2_witness :
    initState.stableState = (ComplianceState.unknown, PhoneState.unknown) ∧
      (stableNC.1 ≠ ComplianceState.unknown →
        stableNC.1 ≠ ComplianceState.unknown) ∧
      (stableNC.2 ≠ PhoneState.unknown → stableNC.2 ≠ PhoneState.unknown) :=
  claim2_stable_axis_never_returns_unknown [ncFrame 0, ncFrame 1] 0 1
    claim2Run 0 1 (processPacket 0 1 (ncFrame 0) stableNC none 0)
    (processPacket 0 1 (ncFrame 1) stableNC none 0) stableNC stableNC
    (by rfl) (by omega) rfl rfl rfl rfl

/-- Claim C5: cold start has no debounce.  If every frame of `pre` has raw
compliance `unknown` and `f` is the first frame with a non-unknown raw
compliance, then `simulateDebounce (pre ++ [f])` succeeds, emits no event,
and the recorded stable state at frame `f` is exactly the full raw state of
`f`, adopted immediately. -/
theorem claim5_cold_start_adoption (t d : ℚ) (pre : List FramePacket)
    (f : FramePacket)
    (hpre : ∀ q ∈ pre, rawComplianceOf t q = ComplianceState.unknown)
    (hf : rawComplianceOf t f ≠ ComplianceState.unknown) :
    ∃ r q, simulateDebounce (pre ++ [f]) t d = Except.ok r ∧
      r.events = [] ∧ r.packets.getLast? = some q ∧
      currentStateOf q = some (rawStateOf t f) := by
  rcases @preFold t (minFramesFor d) d pre initState rfl hpre
    with ⟨st0, hfold0, hA, hB, hC, hD⟩
  have hmu : machineUpdate (minFramesFor d) st0.stableState st0.pendingState
      st0.pendingFrameCount (rawStateOf t f) =
      Except.ok (rawStateOf t f, st0.pendingState, st0.pendingFrameCount) :=
    machineUpdate_cold_adopt (by rw [hA]; rfl) hf
  have hstep : stepFrame t (minFramesFor d) d st0 f = Except.ok
      (assembleState t d st0 f
        (rawStateOf t f, st0.pendingState, st0.pendingFrameCount)) := by
    rw [stepFrame_ok_iff]
    exact ⟨_, hmu, rfl⟩
  set st1 := assembleState t d st0 f
    (rawStateOf t f, st0.pendingState, st0.pendingFrameCount) with hst1
  have hfold : List.foldlM (stepFrame t (minFramesFor d) d) initState
      (pre ++ [f]) = Except.ok st1 := by
    rw [foldlM_ok_append]
    refine ⟨st0, hfold0, ?_⟩
    rw [List.foldlM_cons, hstep, exBind_ok, List.foldlM_nil, exPure]
  refine ⟨_, processPacket t d f (rawStateOf t f) st0.pendingState
    st0.pendingFrameCount,
    simulateDebounce_ok_of_fold (by simp) hfold, ?_, ?_, rfl⟩
  · show st1.events = []
    rw [hst1]
    show st0.events = []
    rw [hD]
    rfl
  · show st1.processedPackets.getLast? = _
    rw [hst1]
    show (st0.processedPackets ++ [_]).getLast? = _
    rw [List.getLast?_concat]

/-- Witness for C5: one zero-person frame followed by `ncFrame 1` adopts
`(non_compliant, no_phone)` at frame 1 with no event. -/
theorem claim5_witness :
    ∃ r q, simulateDebounce ([zFrame 0] ++ [ncFrame 1]) 0 1 = Except.ok r ∧
      r.events = [] ∧ r.packets.getLast? = some q ∧
      currentStateOf q = some (rawStateOf 0 (ncFrame 1)) :=
  claim5_cold_start_adoption 0 1 [zFrame 0] (ncFrame 1) (by decide) (by decide)

/-- Claim C7: monotonicity in the phone threshold.  For a fixed frame
sequence and debounce duration, and thresholds `t1 ≤ t2`, whenever both runs
return, the `phoneFrames` statistic with threshold `t2` is at least the one
with threshold `t1`. -/
theorem claim7_phoneFrames_monotone (packets : List FramePacket)
    (d t1 t2 : ℚ) (r1 r2 : SimulationResult) (hle : t1 ≤ t2)
    (h1 : simulateDebounce packets t1 d = Except.ok r1)
    (h2 : simulateDebounce packets t2 d = Except.ok r2) :
    r1.stats.phoneFrames ≤ r2.stats.phoneFrames := by
  rcases simulateDebounce_ok_inv h1 with ⟨hnil, -, -, hs1⟩ |
    ⟨st1, hfold1, -, -, hs1⟩
  · rcases simulateDebounce_ok_inv h2 with ⟨-, -, -, hs2⟩ |
      ⟨st2, hfold2, -, -, hs2⟩
    · rw [hs1, hs2]
    · rw [hnil] at hfold2
      rw [List.foldlM_nil, exPure] at hfold2
      cases hfold2
      rw [hs1, hs2]
      simp [initState]
  · rcases simulateDebounce_ok_inv h2 with ⟨hnil, -, -, hs2⟩ |
      ⟨st2, hfold2, -, -, hs2⟩
    · rw [hnil] at hfold1
      rw [List.foldlM_nil, exPure] at hfold1
      cases hfold1
      rw [hs1, hs2]
      simp [initState]
    · rw [hs1, hs2]
      show st1.phoneFrames ≤ st2.phoneFrames
      rw [fold_ok_phoneFrames hfold1, fold_ok_phoneFrames hfold2]
      have hinit : initState.phoneFrames = 0 := rfl
      rw [hinit]
      simp only [Nat.zero_add]
      refine List.countP_mono_left ?_
      intro q _ hq
      rw [decide_eq_true_eq] at hq ⊢
      exact rawPhoneOf_mono q hle hq

/-- Witness for C7: on the run `[mixedFrame 0]` with thresholds 1 ≤ 3 the
phone-frame counts are ordered. -/
theorem claim7_witness :
    simulateDebounce [mixedFrame 0] 1 2 = Except.ok claim7Run1 ∧
      simulateDebounce [mixedFrame 0] 3 2 = Except.ok claim7Run2 ∧
      claim7Run1.stats.phoneFrames ≤ claim7Run2.stats.phoneFrames :=
  ⟨rfl, rfl, claim7_phoneFrames_monotone [mixedFrame 0] 2 1 3 claim7Run1
    claim7Run2 (by norm_num) rfl rfl⟩

end StairsDemo
namespace StairsDemo

/-! Persons without a phone measurement contribute nothing to phone logic. -/

theorem flag_and_isSome (t : ℚ) (p : PersonAnalysis) :
    (recomputePhoneForPerson p.phone_heuristic t &&
        p.phone_heuristic.isSome) =
      recomputePhoneForPerson p.phone_heuristic t := by
  cases hp : p.phone_heuristic <;>
    simp [recomputePhoneForPerson, hp]

theorem isSome_and_flag (t : ℚ) (p : PersonAnalysis) :
    (p.phone_heuristic.isSome &&
        recomputePhoneForPerson p.phone_heuristic t) =
      recomputePhoneForPerson p.phone_heuristic t := by
  cases hp : p.phone_heuristic <;>
    simp [recomputePhoneForPerson, hp]

theorem rawPhone_decide_eq_filtered (t : ℚ) (q : FramePacket) :
    decide (rawPhoneOf t q = PhoneState.phone) =
      ((q.persons.filter fun p => p.phone_heuristic.isSome).any
        fun p => recomputePhoneForPerson p.phone_heuristic t) := by
  rw [List.any_filter]
  by_cases hq : rawPhoneOf t q = PhoneState.phone
  · rw [decide_eq_true hq]
    refine (List.any_eq_true.2 ?_).symm
    rcases List.any_eq_true.1 ((rawPhoneOf_eq_phone_iff t q).1 hq) with
      ⟨p, hp, hflag⟩
    exact ⟨p, hp, by rw [isSome_and_flag]; exact hflag⟩
  · rw [decide_eq_false hq]
    by_cases hb : (q.persons.any fun a =>
        a.phone_heuristic.isSome &&
          recomputePhoneForPerson a.phone_heuristic t) = true
    · exfalso
      apply hq
      rw [rawPhoneOf_eq_phone_iff, List.any_eq_true]
      rcases List.any_eq_true.1 hb with ⟨p, hp, hflag⟩
      rw [isSome_and_flag] at hflag
      exact ⟨p, hp, hflag⟩
    · rw [Bool.not_eq_true] at hb
      rw [hb]

/-- Claim C10: a person whose `phone_heuristic` is absent is never flagged:
the flag function returns `false` on `none` for every threshold; dropping
measurement-less persons changes neither a frame's recomputed phone count nor
its raw phone category; and in any completed run, `phoneFrames` counts exactly
the frames in which a person *with* a measurement is flagged. -/
theorem claim10_null_heuristic_never_flagged (t d : ℚ)
    (packets : List FramePacket) (r : SimulationResult)
    (hr : simulateDebounce packets t d = Except.ok r) :
    recomputePhoneForPerson none t = false ∧
      (∀ persons : List PersonAnalysis, phoneCountOf t persons =
        phoneCountOf t (persons.filter fun p => p.phone_heuristic.isSome)) ∧
      (∀ packet : FramePacket, (rawPhoneOf t packet = PhoneState.phone ↔
        ((packet.persons.filter fun p => p.phone_heuristic.isSome).any
          fun p => recomputePhoneForPerson p.phone_heuristic t) = true)) ∧
      r.stats.phoneFrames = packets.countP
        (fun q => (q.persons.filter fun p => p.phone_heuristic.isSome).any
          fun p => recomputePhoneForPerson p.phone_heuristic t) := by
  refine ⟨rfl, ?_, ?_, ?_⟩
  · intro persons
    rw [phoneCountOf_eq, phoneCountOf_eq, List.countP_filter]
    congr 1
    funext p
    rw [flag_and_isSome]
  · intro packet
    rw [rawPhoneOf_eq_phone_iff]
    constructor
    · intro h
      rw [← rawPhone_decide_eq_filtered, decide_eq_true_eq,
        rawPhoneOf_eq_phone_iff]
      exact h
    · intro h
      rw [← rawPhone_decide_eq_filtered, decide_eq_true_eq,
        rawPhoneOf_eq_phone_iff] at h
      exact h
  · rcases simulateDebounce_ok_inv hr with ⟨hnil, -, -, hs⟩ |
      ⟨st, hfold, -, -, hs⟩
    · rw [hs, hnil]
      rfl
    · rw [hs]
      show st.phoneFrames = _
      rw [fold_ok_phoneFrames hfold]
      have hinit : initState.phoneFrames = 0 := rfl
      rw [hinit]
      simp only [Nat.zero_add]
      congr 1
      funext q
      exact rawPhone_decide_eq_filtered t q

/-- Witness for C10 on the one-frame run `[mixedFrame 0]` with threshold 3:
`phoneFrames = 1` counts only the measured, flagged person. -/
theorem claim10_witness :
    recomputePhoneForPerson none 3 = false ∧
      claim7Run2.stats.phoneFrames = [mixedFrame 0].countP
        (fun q => (q.persons.filter fun p => p.phone_heuristic.isSome).any
          fun p => recomputePhoneForPerson p.phone_heuristic 3) := by
  have h := claim10_null_heuristic_never_flagged 3 2 [mixedFrame 0]
    claim7Run2 rfl
  exact ⟨h.1, h.2.2.2⟩

end StairsDemo
namespace StairsDemo

/-- Claim C4: debounce suppresses transients.  Starting from any reachable
state `st0` with an established stable state and no pending candidate, a block
`flip` of frames whose raw state is one fixed value `tt` with a flipped
compliance axis, shorter than `minRunLength`, followed by a block `post` of
frames whose raw state reverts to the stable state, completes without a
commit: the run returns, the event list is exactly the one of `st0`, and
every frame processed during the flip and the reversion still records the
old stable state. -/
theorem claim4_transient_suppressed (t d : ℚ)
    (pre flip post : List FramePacket) (st0 : LoopState) (tt : StateTuple)
    (hpre : List.foldlM (stepFrame t (minFramesFor d) d) initState pre =
      Except.ok st0)
    (hstable : st0.stableState ≠
      (ComplianceState.unknown, PhoneState.unknown))
    (hpending : st0.pendingState = none)
    (hflip : ∀ q ∈ flip, rawStateOf t q = tt)
    (hdiff : tt.1 ≠ st0.stableState.1)
    (hlen : (flip.length : ℤ) < minFramesFor d)
    (hpost : ∀ q ∈ post, rawStateOf t q = st0.stableState) :
    ∃ r, simulateDebounce (pre ++ flip ++ post) t d = Except.ok r ∧
      r.events = st0.events ∧
      ∃ suf, r.packets = st0.processedPackets ++ suf ∧
        ∀ q ∈ suf, currentStateOf q = some st0.stableState := by
  have hprene : pre ≠ [] := by
    intro hc
    rw [hc, List.foldlM_nil, exPure] at hpre
    cases hpre
    exact hstable rfl
  have hne : pre ++ flip ++ post ≠ [] := by
    intro hc
    exact hprene (List.append_eq_nil.1 (List.append_eq_nil.1 hc).1).1
  have htt : tt ≠ st0.stableState := by
    intro hc
    rw [hc] at hdiff
    exact hdiff rfl
  -- run the flip block
  have hflipRun : ∃ st2, List.foldlM (stepFrame t (minFramesFor d) d) st0
      flip = Except.ok st2 ∧ st2.stableState = st0.stableState ∧
      st2.events = st0.events ∧
      ∃ suf, st2.processedPackets = st0.processedPackets ++ suf ∧
        ∀ q ∈ suf, currentStateOf q = some st0.stableState := by
    cases flip with
    | nil =>
      exact ⟨st0, by rw [List.foldlM_nil, exPure], rfl, rfl, [], by simp⟩
    | cons f rest =>
      have hrawf : rawStateOf t f = tt := hflip f (List.mem_cons_self f rest)
      have hmu : machineUpdate (minFramesFor d) st0.stableState
          st0.pendingState st0.pendingFrameCount (rawStateOf t f) =
          Except.ok (st0.stableState, some (rawStateOf t f), 1) :=
        machineUpdate_newPending hstable (by rw [hrawf]; exact htt)
          (by rw [hpending]; intro hc; cases hc)
      have hstep : stepFrame t (minFramesFor d) d st0 f = Except.ok
          (assembleState t d st0 f
            (st0.stableState, some (rawStateOf t f), 1)) := by
        rw [stepFrame_ok_iff]
        exact ⟨_, hmu, rfl⟩
      set st1 := assembleState t d st0 f
        (st0.stableState, some (rawStateOf t f), 1) with hst1
      have h1 : st1.stableState = st0.stableState := rfl
      have h2 : st1.pendingState = some (rawStateOf t f) := rfl
      have h3 : st1.pendingFrameCount = 1 := rfl
      have hbound : ((1 + rest.length : ℕ) : ℤ) < minFramesFor d := by
        simp only [List.length_cons] at hlen
        push_cast at hlen ⊢
        omega
      rcases @flipFold t (minFramesFor d) d tt rest st1 1
          (by rw [h1]; exact hstable)
          (by rw [h1]; exact htt) (by rw [h2, hrawf]) h3
          (fun q hq => hflip q (List.mem_cons_of_mem f hq)) hbound
        with ⟨st2, hfold2, hA, -, -, hD, suf1, hE, hF⟩
      refine ⟨st2, ?_, by rw [hA, h1], by rw [hD, hst1]; rfl, ?_⟩
      · rw [List.foldlM_cons, hstep, exBind_ok]
        exact hfold2
      · refine ⟨processPacket t d f st0.stableState
          (some (rawStateOf t f)) 1 :: suf1, ?_, ?_⟩
        · rw [hE, hst1]
          show st0.processedPackets ++ [_] ++ suf1 = _
          rw [List.append_assoc, List.singleton_append]
        · intro x hx
          rcases List.mem_cons.1 hx with rfl | hx
          · rfl
          · rw [hF x hx, h1]
  rcases hflipRun with ⟨st2, hfold2, hA2, hB2, suf1, hC2, hD2⟩
  rcases @sameRawFold t (minFramesFor d) d post st2
      (by rw [hA2]; exact hstable)
      (fun q hq => by rw [hA2]; exact hpost q hq)
    with ⟨st3, hfold3, hA3, hB3, suf2, hC3, hD3⟩
  have hfold : List.foldlM (stepFrame t (minFramesFor d) d) initState
      (pre ++ flip ++ post) = Except.ok st3 := by
    rw [foldlM_ok_append]
    refine ⟨st2, ?_, hfold3⟩
    rw [foldlM_ok_append]
    exact ⟨st0, hpre, hfold2⟩
  refine ⟨_, simulateDebounce_ok_of_fold hne hfold, ?_, ?_⟩
  · show st3.events = st0.events
    rw [hB3, hB2]
  · refine ⟨suf1 ++ suf2, ?_, ?_⟩
    · show st3.processedPackets = _
      rw [hC3, hC2, List.append_assoc]
    · intro x hx
      rcases List.mem_append.1 hx with hx | hx
      · exact hD2 x hx
      · rw [hD3 x hx, hA2]

/-- Witness for C4: after `[ncFrame 0]` establishes `(non_compliant,
no_phone)`, a single compliant frame (1 < minRunLength = 24) followed by a
reverting frame yields no commit and an unchanged stable state. -/
theorem claim4_witness :
    ∃ r, simulateDebounce ([ncFrame 0] ++ [cFrame 1] ++ [ncFrame 2]) 0 1 =
        Except.ok r ∧
      r.events = claim4PreState.events ∧
      ∃ suf, r.packets = claim4PreState.processedPackets ++ suf ∧
        ∀ q ∈ suf, currentStateOf q = some claim4PreState.stableState := by
  refine claim4_transient_suppressed 0 1 [ncFrame 0] [cFrame 1] [ncFrame 2]
    claim4PreState (ComplianceState.compliant, PhoneState.no_phone)
    rfl (by decide) rfl (by decide) (by decide) ?_ (by decide)
  rw [show minFramesFor 1 = 24 by unfold minFramesFor fps; norm_num]
  norm_num
end StairsDemo
